import Mathlib

/-!
Shallow embedding of the nagini log-pipeline core (package `lib`, plus
`cmd/run.go`): directory creation (`TryCreateDir`), line concatenation
(`concatFilesToFd`, `ConcatFiles`, `ConcatToStdout`), the per-day
aggregator (`ConcatFilesParallelByDate`), the per-file task runner
(`runCommand`) and the pipeline driver (`ParseLogs`).

Modelling conventions:
* The filesystem is a map `FS := String → Option String` from a path to the
  raw byte content of the file at that path (`none` when opening fails).
* `time.Time` values are whole hours (`Nat`, hours since an epoch that lies
  on a day boundary); the driver only ever manipulates whole hours because
  the time range is parsed at hour granularity (`TimeFormatShort`).
  `Truncate(24h)` is `t - t % 24`, `AddDate(0,0,1)` is `t + 24`,
  `Add(time.Hour)` is `t + 1`, `Before` is `<` and `Equal` is `=`.
* `filepath.Glob` for the hour pattern
  `<logDir>/<YYYY-MM-DD>/<logType>.<HH>*` is an oracle
  `glob : Nat → Option (List String)` indexed by the hour (the pattern is a
  function of the hour once `logDir`/`logType` are fixed); `none` is a glob
  error (`ErrBadPattern`), which for a fixed malformed pattern is
  deterministic.
* Writes to a destination are recorded as the list of strings passed to
  `WriteString`, in order; the destination's content is their
  concatenation.
-/

namespace Nagini

/-- Filesystem model: path to content of the file there, `none` if the path
cannot be opened. -/
abbrev FS := String → Option String

/-- Removal of one path from the filesystem, the model of `os.Remove`. -/
def fsRemove (fs : FS) (p : String) : FS :=
  fun q => if q = p then none else fs q

/-- Model of Go `bufio.ScanLines` dropping one trailing carriage return from
a line. -/
def dropCR (s : String) : String :=
  if s.endsWith "\r" then s.dropRight 1 else s

/-- Tokens produced by `bufio.Scanner` with the default `ScanLines` split on
the given content: split at each newline, the terminator is not part of the
token, a final newline does not yield an extra empty token, and a trailing
carriage return is dropped from each token. -/
def scanLines (s : String) : List String :=
  if s = "" then []
  else
    let parts := s.splitOn "\n"
    (if s.endsWith "\n" then parts.dropLast else parts).map dropCR

/-- Strings written to the destination for one source file: one write of
`line ++ "\n"` per scanned line (`outFd.WriteString(scanner.Text() + "\n")`). -/
def lineWrites (content : String) : List String :=
  (scanLines content).map (fun l => l ++ "\n")

/-- Model of Go `sort.Strings`: sort in ascending lexicographic order. -/
def sortStrings (l : List String) : List String :=
  l.mergeSort

/-- Loop body of `concatFilesToFd` over the already-sorted file list:
attempt to open each path; on failure skip it (the error is only logged);
on success write every scanned line with a newline, then delete the source
when `deleteInputAfterRead` is set. Threads the filesystem and accumulates
the writes. -/
def concatLoop (del : Bool) : List String → FS → List String → (List String × FS)
  | [], fs, acc => (acc, fs)
  | p :: rest, fs, acc =>
    match fs p with
    | none => concatLoop del rest fs acc
    | some content =>
        concatLoop del rest (if del then fsRemove fs p else fs)
          (acc ++ lineWrites content)

/-- Result of a concatenation: the sequence of strings written to the
destination, the filesystem afterwards, and the error returned
(`outFd.Close()`, modelled as always succeeding). -/
structure ConcatResult where
  written : List String
  fs : FS
  closeErr : Option String

/-- Model of `concatFilesToFd` (lib, lines 115-150): sort the input paths,
then run the concatenation loop; the returned error is the close error of
the destination. `ignoreMissing` only suppresses the log line for a source
that fails to open; it does not change behaviour. -/
def concatFilesToFd (fs : FS) (inputFiles : List String)
    (deleteInputAfterRead ignoreMissing : Bool) : ConcatResult :=
  let r := concatLoop deleteInputAfterRead (sortStrings inputFiles) fs []
  ⟨r.1, r.2, none⟩

/-- Model of `ConcatToStdout`: identical to `concatFilesToFd` with the
destination being standard output; `written` is what reaches stdout. -/
def ConcatToStdout (fs : FS) (inputFiles : List String)
    (deleteInputAfterRead ignoreMissing : Bool) : ConcatResult :=
  concatFilesToFd fs inputFiles deleteInputAfterRead ignoreMissing

/-- Model of `ConcatFiles`: `os.Create` the output file (modelled as
succeeding, creating an empty file), concatenate into it, and return the
error together with the filesystem in which the output file holds the
concatenation of everything written. -/
def ConcatFiles (fs : FS) (inputFiles : List String) (outputFile : String)
    (deleteInputAfterRead ignoreMissing : Bool) : Option String × FS :=
  let fs0 : FS := fun q => if q = outputFile then some "" else fs q
  let r := concatFilesToFd fs0 inputFiles deleteInputAfterRead ignoreMissing
  (r.closeErr, fun q => if q = outputFile then some (String.join r.written) else r.fs q)

/-- Contents, in list order, of the sources that can be opened when their
turn comes in the concatenation pass (a deleted duplicate can no longer be
opened). This is the specification-side companion of `concatLoop`. -/
def openedContents (del : Bool) : FS → List String → List String
  | _, [] => []
  | fs, p :: rest =>
    match fs p with
    | none => openedContents del fs rest
    | some c => c :: openedContents del (if del then fsRemove fs p else fs) rest

/-- Result of the per-day aggregator `ConcatFilesParallelByDate` (lib,
lines 68-96), recording its observable effects after `wgDate.Wait()`
returns: whether the no-matches warning was logged, whether the summary
line was `SUCCESS` (as opposed to `FAIL`), the filesystem afterwards, and
the number of `wgAll.Done()` signals and day-bar increments it performed. -/
structure DayAggResult where
  warnedNoMatches : Bool
  loggedSuccess : Bool
  fs : FS
  wgAllDone : Nat
  dayBarIncrements : Nat

/-- Model of `ConcatFilesParallelByDate` after its `wgDate.Wait()` barrier:
with an empty artifact list it logs a warning and skips the concatenation
(not a failure); otherwise it folds the artifacts into the day file with
`ConcatFiles`, deleting artifacts and logging read errors. The deferred
`wgAll.Done()` and `bar.Increment()` run exactly once on every path. -/
def ConcatFilesParallelByDate (fs : FS) (inputFiles : List String)
    (outputFile : String) : DayAggResult :=
  if inputFiles.isEmpty then
    { warnedNoMatches := true, loggedSuccess := true, fs := fs,
      wgAllDone := 1, dayBarIncrements := 1 }
  else
    let r := ConcatFiles fs inputFiles outputFile true false
    { warnedNoMatches := false, loggedSuccess := r.1.isNone, fs := r.2,
      wgAllDone := 1, dayBarIncrements := 1 }

/-- Outcomes of the four fallible operations inside one task runner
(`cmd/run.go`, `runCommand`): `os.Open` of the input, `gzip.NewReader`,
`os.Create` of the output, and `cmd.Run()` of the child process. -/
structure TaskOutcome where
  openOk : Bool
  gzipOk : Bool
  createOk : Bool
  runOk : Bool

/-- Observable effects of one task runner: how many times it called
`wgDate.Add(1)` (before launching the goroutine), how many times the
deferred `wgDate.Done()` and `taskBar.Increment()` ran, whether an error
was propagated to the caller (the function has no error return), and
whether a failure was logged. -/
structure TaskRun where
  wgDateAdded : Nat
  wgDateDone : Nat
  taskBarIncrements : Nat
  raisedError : Bool
  errorLogged : Bool

/-- Model of `runCommand` (cmd/run.go, lines 233-278): `wgDate.Add(1)`,
then a goroutine whose first statements defer `wgDate.Done()` and
`taskBar.Increment()`; each failure point logs and returns early, so the
deferred signals run exactly once on every path and no error ever reaches
the caller. -/
def runCommand (o : TaskOutcome) : TaskRun :=
  if !o.openOk then ⟨1, 1, 1, false, true⟩
  else if !o.gzipOk then ⟨1, 1, 1, false, true⟩
  else if !o.createOk then ⟨1, 1, 1, false, true⟩
  else if !o.runOk then ⟨1, 1, 1, false, true⟩
  else ⟨1, 1, 1, false, false⟩

/-- Kind of filesystem object found at a path by `os.Stat`. -/
inductive PathKind where
  | missing : PathKind
  | file : PathKind
  | dir : PathKind
deriving DecidableEq

/-- Oracle for the filesystem operations performed by `TryCreateDir`: what
`os.Stat` finds at the target and at its parent, whether `os.Mkdir`
succeeds, whether `os.OpenFile(dir, O_RDWR, 0)` succeeds, and whether
`Readdirnames(1)` returns an entry (directory non-empty, error not
`io.EOF`). `filepath.Abs` is modelled as succeeding. -/
structure DirState where
  target : PathKind
  parent : PathKind
  mkdirOk : Bool
  openOk : Bool
  hasEntry : Bool

/-- Result of `TryCreateDir`: the returned error and whether a directory
was created. -/
structure DirResult where
  err : Option String
  created : Bool

/-- Model of `TryCreateDir` (lib, lines 25-65). When the target is missing,
the parent must exist and be a directory, then `os.Mkdir` runs and its
error is returned. When the target exists and is not a directory, a
conflict error is returned. When the target is an existing directory, the
code opens it read-write: if that open fails it executes `return err`
where `err` still holds the nil result of the earlier successful
`os.Stat`, so it returns no error; if `empty` is set and the directory has
an entry, the non-empty error is returned. -/
def TryCreateDir (st : DirState) (empty : Bool) : DirResult :=
  match st.target with
  | .missing =>
    match st.parent with
    | .missing => ⟨some "cannot use parent directory: does not exist.", false⟩
    | .file => ⟨some "cannot use parent directory: exists but is not a directory.", false⟩
    | .dir =>
        if st.mkdirOk then ⟨none, true⟩
        else ⟨some "mkdir failed", false⟩
  | .file => ⟨some "cannot create output directory: file of same name already exists, and is not a directory.", false⟩
  | .dir =>
    if !st.openOk then
      ⟨none, false⟩
    else if empty && st.hasEntry then
      ⟨some "cannot use specified directory: directory exists and is non-empty.", false⟩
    else ⟨none, false⟩

/-- State threaded through the hour loop of `ParseLogs`: the current hour
`curTime`, the day's accumulated temp-artifact paths, and globally
accumulated dispatched tasks `(logFile, outputFileTemp, hour)`, the hours
whose glob succeeded and was processed, and the running `taskCount`. -/
structure HourState where
  curTime : Nat
  tempFiles : List String
  tasks : List (String × String × Nat)
  hours : List Nat
  taskCount : Nat

/-- Model of the hour loop of `ParseLogs` (lib, lines 187-213), fuelled
because the Go loop is an unbounded `for`. The loop runs while
`curTime.Before(curDate.AddDate(0,0,1)) && (curTime.Before(endTime) ||
curTime.Equal(endTime))`. On a glob error the code logs and executes
`continue`, which re-enters the loop without executing
`curTime = curTime.Add(time.Hour)`; on success every match is recorded as
a dispatched task with its deterministic temp path `tmp curTime logFile`,
and the hour advances by one. `none` means the fuel ran out before the
loop exited. -/
def hourLoop (glob : Nat → Option (List String)) (tmp : Nat → String → String)
    (nextDay endTime : Nat) : Nat → HourState → Option HourState
  | 0, _ => none
  | Nat.succ fuel, st =>
    if st.curTime < nextDay ∧ (st.curTime < endTime ∨ st.curTime = endTime) then
      match glob st.curTime with
      | none => hourLoop glob tmp nextDay endTime fuel st
      | some ms =>
          hourLoop glob tmp nextDay endTime fuel
            { curTime := st.curTime + 1,
              tempFiles := st.tempFiles ++ ms.map (fun f => tmp st.curTime f),
              tasks := st.tasks ++ ms.map (fun f => (f, tmp st.curTime f, st.curTime)),
              hours := st.hours ++ [st.curTime],
              taskCount := st.taskCount + ms.length }
    else
      some st

/-- State threaded through the day loop of `ParseLogs`: the current day
boundary `curDate`, the current hour `curTime`, the accumulators of the
hour loop, the day output files registered so far, and the dispatched Day
Aggregators `(tempFiles, outputFile, day)`. -/
structure DayState where
  curDate : Nat
  curTime : Nat
  tasks : List (String × String × Nat)
  hours : List Nat
  taskCount : Nat
  outputFiles : List String
  aggs : List (List String × String × Nat)

/-- Model of the day loop of `ParseLogs` (lib, lines 182-228): while
`curDate.Before(endTime) || curDate.Equal(endTime)`, reset the day's
`tempFiles`, run the hour loop with the next day boundary
`curDate.AddDate(0,0,1)`, then `wgAll.Add(1)`, register the day output
file `dayFile curDate`, dispatch one Day Aggregator for the accumulated
artifact list, and advance `curDate` by one day. -/
def dayLoop (glob : Nat → Option (List String)) (tmp : Nat → String → String)
    (dayFile : Nat → String) (endTime : Nat) (hourFuel : Nat) :
    Nat → DayState → Option DayState
  | 0, _ => none
  | Nat.succ fuel, st =>
    if st.curDate < endTime ∨ st.curDate = endTime then
      match hourLoop glob tmp (st.curDate + 24) endTime hourFuel
          ⟨st.curTime, [], st.tasks, st.hours, st.taskCount⟩ with
      | none => none
      | some h =>
          dayLoop glob tmp dayFile endTime hourFuel fuel
            { curDate := st.curDate + 24,
              curTime := h.curTime,
              tasks := h.tasks,
              hours := h.hours,
              taskCount := h.taskCount,
              outputFiles := st.outputFiles ++ [dayFile st.curDate],
              aggs := st.aggs ++ [(h.tempFiles, dayFile st.curDate, st.curDate)] }
    else
      some st

/-- Effects of the finalize step of `ParseLogs`: what was streamed to
standard output (if anything), whether `os.Remove` was called on the
output directory, the combined single-output file if one was created, the
filesystem afterwards, and whether a finalize error was printed. -/
structure FinalizeResult where
  stdoutOut : Option (List String)
  removeOutDirCalled : Bool
  combinedFile : Option String
  fs : FS
  errPrinted : Bool

/-- Model of the finalize step of `ParseLogs` (lib, lines 235-257): if
`writeStdout` is set, concatenate the day files to standard output
(deleting them, tolerating missing ones) and then remove the output
directory; otherwise, if `singleFile` is set, concatenate the day files
into the combined `<logType>.json` file; otherwise leave the per-day files
as they are. -/
def finalizeStep (fs : FS) (outputFiles : List String) (combinedPath : String)
    (writeStdout singleFile : Bool) : FinalizeResult :=
  if writeStdout then
    let r := ConcatToStdout fs outputFiles true true
    { stdoutOut := some r.written, removeOutDirCalled := true,
      combinedFile := none, fs := r.fs, errPrinted := r.closeErr.isSome }
  else if singleFile then
    let r := ConcatFiles fs outputFiles combinedPath true true
    { stdoutOut := none, removeOutDirCalled := false,
      combinedFile := some combinedPath, fs := r.2, errPrinted := r.1.isSome }
  else
    { stdoutOut := none, removeOutDirCalled := false,
      combinedFile := none, fs := fs, errPrinted := false }

/-- Result of one `ParseLogs` run: the error from the directory check (it
is only printed; the pipeline continues either way), the dispatched tasks,
the processed hours, the final `taskCount`, the registered day output
files, the dispatched Day Aggregators, and the finalize effects. -/
structure ParseResult where
  dirErr : Option String
  tasks : List (String × String × Nat)
  hours : List Nat
  taskCount : Nat
  outputFiles : List String
  aggs : List (List String × String × Nat)
  final : FinalizeResult

/-- Model of `ParseLogs` (lib, lines 154-258). Parameters standing for the
parts of the computation that depend on the external world: `dirSt` drives
`TryCreateDir` on the output directory, `glob` is the per-hour glob
oracle, `tmp` builds the deterministic temp path for an hour and a matched
file (line 201), `dayFile` builds the day output path for a day boundary
(line 219), `combinedPath` is `<outDir>/<logType>.json`, and `fsAfterDays`
is the filesystem at the time the finalize step runs (after `wgAll.Wait()`
has seen every Day Aggregator finish). The driver truncates `startTime` to
its day boundary, runs the fuelled day loop, and finalizes. -/
def ParseLogs (dirSt : DirState) (glob : Nat → Option (List String))
    (tmp : Nat → String → String) (dayFile : Nat → String)
    (combinedPath : String) (startTime endTime : Nat)
    (singleFile writeStdout : Bool) (fsAfterDays : FS) (fuel : Nat) :
    Option ParseResult :=
  let e := (TryCreateDir dirSt true).err
  let st0 : DayState :=
    ⟨startTime - startTime % 24, startTime, [], [], 0, [], []⟩
  (dayLoop glob tmp dayFile endTime fuel fuel st0).map fun d =>
    { dirErr := e,
      tasks := d.tasks,
      hours := d.hours,
      taskCount := d.taskCount,
      outputFiles := d.outputFiles,
      aggs := d.aggs,
      final := finalizeStep fsAfterDays d.outputFiles combinedPath
        writeStdout singleFile }

/-! Theorems. -/

/-- Helper: once the glob for the current hour errors and the loop
condition holds, the hour loop never changes its state (the `continue`
skips the hour advance), so it exhausts any amount of fuel. -/
theorem hourLoop_glob_error_stuck (glob : Nat → Option (List String))
    (tmp : Nat → String → String) (nextDay endTime : Nat) (st : HourState)
    (hcond : st.curTime < nextDay ∧ (st.curTime < endTime ∨ st.curTime = endTime))
    (herr : glob st.curTime = none) :
    ∀ fuel, hourLoop glob tmp nextDay endTime fuel st = none := by
  intro fuel
  induction fuel with
  | zero => rfl
  | succ n ih =>
    simp only [hourLoop, if_pos hcond, herr]
    exact ih

/-- C1: the claim is that on a glob error the driver still advances to the
next hour and the hour loop terminates. The code instead executes
`continue` before `curTime = curTime.Add(time.Hour)`, so with a glob that
errors for the current hour (a malformed pattern errors deterministically
on every retry) the hour loop of `ParseLogs` re-globs the same hour
forever: at hour 0 of the range 0-5 it terminates under no amount of
fuel. -/
theorem claim_C1_hour_loop_never_terminates_on_glob_error :
    ∀ fuel, hourLoop (fun _ => none) (fun _ f => f) 24 5 fuel
      ⟨0, [], [], [], 0⟩ = none := by
  intro fuel
  exact hourLoop_glob_error_stuck _ _ 24 5 _ (by exact ⟨by decide, Or.inl (by decide)⟩) rfl fuel

/-- C2 counterexample: with an output directory that fails validation
(existing non-empty directory, so `TryCreateDir` returns an error) and a
glob with one match at hour 0 of the range 0-0, `ParseLogs` still
dispatches one Task Runner and one Day Aggregator: the pipeline does not
abort before dispatch. -/
theorem claim_C2_counterexample :
    (ParseLogs ⟨.dir, .dir, true, true, true⟩
        (fun t => if t = 0 then some ["a.log"] else some [])
        (fun _ f => f) (fun _ => "d") "combined.json" 0 0 false false
        (fun _ => none) 30).map
      (fun r => (r.dirErr.isSome, r.tasks.length, r.aggs.length)) =
      some (true, 1, 1) := by
  rfl

/-- C2 amended: when creation/validation of the output directory fails,
`ParseLogs` prints the error but does not abort: discovery, Task Runner
and Day Aggregator dispatch, and finalization are identical to a run in
which the directory check succeeds (the outcome of the check influences
nothing but the printed error). -/
theorem claim_C2_amended_pipeline_continues_after_dir_error
    (dirSt dirSt' : DirState) (glob : Nat → Option (List String))
    (tmp : Nat → String → String) (dayFile : Nat → String)
    (combinedPath : String) (startTime endTime : Nat)
    (singleFile writeStdout : Bool) (fsAfterDays : FS) (fuel : Nat) :
    (ParseLogs dirSt glob tmp dayFile combinedPath startTime endTime
        singleFile writeStdout fsAfterDays fuel).map
      (fun r => (r.tasks, r.hours, r.taskCount, r.outputFiles, r.aggs, r.final)) =
    (ParseLogs dirSt' glob tmp dayFile combinedPath startTime endTime
        singleFile writeStdout fsAfterDays fuel).map
      (fun r => (r.tasks, r.hours, r.taskCount, r.outputFiles, r.aggs, r.final)) := by
  simp only [ParseLogs, Option.map_map]
  rfl

/-- C6: a day whose artifact list is empty logs the no-matches warning,
creates no aggregate output file (the filesystem is unchanged), logs
SUCCESS rather than FAIL, and still signals the global barrier exactly
once and increments day progress exactly once. -/
theorem claim_C6_empty_day_skips_without_error (fs : FS) (outputFile : String) :
    ConcatFilesParallelByDate fs [] outputFile =
      { warnedNoMatches := true, loggedSuccess := true, fs := fs,
        wgAllDone := 1, dayBarIncrements := 1 } := by
  rfl

/-- C7: every task runner, on each of its execution paths (input open
failure, decompress failure, output create failure, child-process failure,
or success), signals its day's barrier exactly once (balancing its single
`Add(1)`), increments task progress exactly once, and raises no error to
its caller. -/
theorem claim_C7_task_runner_signals_exactly_once (o : TaskOutcome) :
    (runCommand o).wgDateAdded = 1 ∧ (runCommand o).wgDateDone = 1 ∧
    (runCommand o).taskBarIncrements = 1 ∧ (runCommand o).raisedError = false := by
  obtain ⟨a, b, c, d⟩ := o
  cases a <;> cases b <;> cases c <;> cases d <;> exact ⟨rfl, rfl, rfl, rfl⟩

/-- C8: the claim is that `TryCreateDir` returns a non-nil error whenever
an existing directory cannot be opened for read-write. Evaluating the code
at that failing input (existing non-empty directory whose
`OpenFile(O_RDWR)` fails, empty flag set): the `return err` in the open
failure branch returns the stale nil error of the earlier successful
`os.Stat`, so `TryCreateDir` reports success. -/
theorem claim_C8_writability_failure_returns_nil_error :
    TryCreateDir ⟨.dir, .dir, true, false, true⟩ true =
      { err := none, created := false } := by
  rfl

/-- C10: when both stream mode and single-file mode are requested, stream
mode takes precedence: whatever `ParseLogs` run completes, its finalize
step streams the concatenation of the day files to standard output with
deletion of the sources (`concatFilesToFd` with delete set), calls
`os.Remove` on the output directory, and never creates a combined
single-output file. -/
theorem claim_C10_stdout_mode_takes_precedence
    (dirSt : DirState) (glob : Nat → Option (List String))
    (tmp : Nat → String → String) (dayFile : Nat → String)
    (combinedPath : String) (startTime endTime : Nat) (fsAfterDays : FS)
    (fuel : Nat) :
    (ParseLogs dirSt glob tmp dayFile combinedPath startTime endTime
        true true fsAfterDays fuel).map
      (fun r => (r.final.stdoutOut, r.final.removeOutDirCalled,
        r.final.combinedFile, r.final.fs)) =
    (ParseLogs dirSt glob tmp dayFile combinedPath startTime endTime
        true true fsAfterDays fuel).map
      (fun r => (some (concatFilesToFd fsAfterDays r.outputFiles true true).written,
        true, (none : Option String),
        (concatFilesToFd fsAfterDays r.outputFiles true true).fs)) := by
  simp only [ParseLogs, Option.map_map]
  rfl

/-- Helper: the concatenation loop writes, after whatever was already
written, exactly the line writes of the contents of the sources that could
be opened, in list order. -/
theorem concatLoop_written (del : Bool) :
    ∀ (l : List String) (fs : FS) (acc : List String),
      (concatLoop del l fs acc).1 =
        acc ++ (openedContents del fs l).flatMap lineWrites := by
  intro l
  induction l with
  | nil => intro fs acc; simp [concatLoop, openedContents]
  | cons p rest ih =>
    intro fs acc
    cases h : fs p with
    | none => simp [concatLoop, openedContents, h, ih]
    | some c => simp [concatLoop, openedContents, h, ih]

/-- Helper: without deletion, the sources that can be opened during the
pass are exactly those present in the starting filesystem, and their
contents are read from it. -/
theorem openedContents_no_delete :
    ∀ (l : List String) (fs : FS),
      openedContents false fs l = l.filterMap fs := by
  intro l
  induction l with
  | nil => intro fs; rfl
  | cons p rest ih =>
    intro fs
    cases h : fs p with
    | none => simp [openedContents, h, ih]
    | some c => simp [openedContents, h, ih]

/-- C4: for every filesystem, candidate list and flag setting, the
destination receives exactly the line writes (each scanned line terminated
with a newline, whatever the source's own terminator) of the full contents
of every source that could be opened, in lexicographically sorted path
order; a source that fails to open is skipped and the batch never returns
an error; without deletion the openable sources are exactly those the
starting filesystem can open. -/
theorem claim_C4_concat_sorted_skip_on_failure (fs : FS)
    (paths : List String) (del ign : Bool) :
    (concatFilesToFd fs paths del ign).written =
      (openedContents del fs (sortStrings paths)).flatMap lineWrites ∧
    (concatFilesToFd fs paths del ign).closeErr = none ∧
    openedContents false fs (sortStrings paths) =
      (sortStrings paths).filterMap fs := by
  refine ⟨?_, rfl, openedContents_no_delete _ _⟩
  simpa using concatLoop_written del (sortStrings paths) fs []

/-- Helper: two lists that are permutations of each other have the same
`sort.Strings` result. -/
theorem sortStrings_eq_of_perm {l1 l2 : List String} (h : l1.Perm l2) :
    sortStrings l1 = sortStrings l2 := by
  apply List.eq_of_perm_of_sorted
    (r := fun a b : String => a ≤ b)
    (((l1.mergeSort_perm _).trans h).trans (l2.mergeSort_perm _).symm)
  · simpa using List.sorted_mergeSort' l1
  · simpa using List.sorted_mergeSort' l2

/-- C9: concatenation is invariant under permutation of the input path
list: two permuted lists produce identical writes, identical filesystem
effects and identical returned error, because the list is sorted before
reading. -/
theorem claim_C9_concat_permutation_invariant (fs : FS)
    (l1 l2 : List String) (del ign : Bool) (h : l1.Perm l2) :
    concatFilesToFd fs l1 del ign = concatFilesToFd fs l2 del ign := by
  unfold concatFilesToFd
  rw [sortStrings_eq_of_perm h]

/-- C9 witness: the concrete pair of permuted lists from the spec,
`[b, a]` and `[a, b]`, yield identical concatenation results. -/
theorem claim_C9_witness :
    concatFilesToFd
        (fun p => if p = "a" then some "x" else if p = "b" then some "y" else none)
        ["b", "a"] true true =
      concatFilesToFd
        (fun p => if p = "a" then some "x" else if p = "b" then some "y" else none)
        ["a", "b"] true true :=
  claim_C9_concat_permutation_invariant _ _ _ _ _ (List.Perm.swap "a" "b" [])

/-- Helper: with an error-free glob oracle and enough fuel, the hour loop
terminates exactly at the earlier of the next day boundary and the hour
after the range end, having processed each hour from the current one up to
that exit point once. -/
theorem hourLoop_run (glob : Nat → Option (List String))
    (tmp : Nat → String → String) (nextDay endTime : Nat)
    (hglob : ∀ t, (glob t).isSome) :
    ∀ (fuel : Nat) (st : HourState),
      st.curTime ≤ min nextDay (endTime + 1) →
      min nextDay (endTime + 1) - st.curTime < fuel →
      ∃ h, hourLoop glob tmp nextDay endTime fuel st = some h ∧
        h.curTime = min nextDay (endTime + 1) ∧
        h.hours = st.hours ++
          List.range' st.curTime (min nextDay (endTime + 1) - st.curTime) := by
  intro fuel
  induction fuel with
  | zero => intro st h1 h2; omega
  | succ n ih =>
    intro st h1 h2
    by_cases hc : st.curTime < nextDay ∧ (st.curTime < endTime ∨ st.curTime = endTime)
    · have hlt : st.curTime < min nextDay (endTime + 1) := by omega
      obtain ⟨ms, hms⟩ := Option.isSome_iff_exists.mp (hglob st.curTime)
      obtain ⟨h, hrun, hcur, hhours⟩ :=
        ih { curTime := st.curTime + 1,
             tempFiles := st.tempFiles ++ ms.map (fun f => tmp st.curTime f),
             tasks := st.tasks ++ ms.map (fun f => (f, tmp st.curTime f, st.curTime)),
             hours := st.hours ++ [st.curTime],
             taskCount := st.taskCount + ms.length }
          (by simp only; omega) (by simp only; omega)
      refine ⟨h, ?_, hcur, ?_⟩
      · simp only [hourLoop, if_pos hc, hms]
        exact hrun
      · rw [hhours]
        simp only [List.append_assoc, List.singleton_append]
        have he : min nextDay (endTime + 1) - st.curTime =
            (min nextDay (endTime + 1) - (st.curTime + 1)) + 1 := by omega
        rw [he, List.range'_succ]
    · have he : st.curTime = min nextDay (endTime + 1) := by omega
      refine ⟨st, ?_, he, ?_⟩
      · simp only [hourLoop, if_neg hc]
      · rw [← he]
        simp

/-- Helper: two adjacent hour ranges concatenate into one. -/
theorem range'_glue (a b c : Nat) (h1 : a ≤ b) (h2 : b ≤ c) :
    List.range' a (b - a) ++ List.range' b (c - b) = List.range' a (c - a) := by
  obtain ⟨k, rfl⟩ : ∃ k, b = a + k := ⟨b - a, by omega⟩
  obtain ⟨m, rfl⟩ : ∃ m, c = a + k + m := ⟨c - (a + k), by omega⟩
  have e1 : a + k - a = k := by omega
  have e2 : a + k + m - (a + k) = m := by omega
  have e3 : a + k + m - a = m + k := by omega
  rw [e1, e2, e3, List.range'_append_1]

/-- Helper: with an error-free glob oracle, a hard bound on the per-day
hour fuel and enough day fuel, the day loop starting at a day boundary at
or before the range end dispatches one Day Aggregator per remaining
calendar day and processes exactly the remaining in-range hours. -/
theorem dayLoop_run (glob : Nat → Option (List String))
    (tmp : Nat → String → String) (dayFile : Nat → String)
    (endTime hourFuel : Nat) (hglob : ∀ t, (glob t).isSome)
    (hhf : 24 < hourFuel) :
    ∀ (dfuel : Nat) (st : DayState),
      st.curDate % 24 = 0 →
      st.curDate ≤ endTime →
      st.curDate ≤ st.curTime →
      st.curTime < st.curDate + 24 →
      st.curTime ≤ endTime + 1 →
      endTime / 24 - st.curDate / 24 + 1 < dfuel →
      ∃ d, dayLoop glob tmp dayFile endTime hourFuel dfuel st = some d ∧
        d.aggs.length = st.aggs.length + (endTime / 24 - st.curDate / 24 + 1) ∧
        d.hours = st.hours ++ List.range' st.curTime (endTime + 1 - st.curTime) := by
  intro dfuel
  induction dfuel with
  | zero => intro st hmod hle hct1 hct2 hct3 hdf; omega
  | succ n ih =>
    intro st hmod hle hct1 hct2 hct3 hdf
    have hcond : st.curDate < endTime ∨ st.curDate = endTime := by omega
    obtain ⟨h, hrun, hcur, hhours⟩ :=
      hourLoop_run glob tmp (st.curDate + 24) endTime hglob hourFuel
        ⟨st.curTime, [], st.tasks, st.hours, st.taskCount⟩
        (by simp only; omega) (by simp only; omega)
    by_cases hlast : st.curDate + 24 ≤ endTime
    · have hmin : min (st.curDate + 24) (endTime + 1) = st.curDate + 24 := by omega
      rw [hmin] at hcur hhours
      obtain ⟨d, hd, hdlen, hdhours⟩ :=
        ih { curDate := st.curDate + 24,
             curTime := h.curTime,
             tasks := h.tasks,
             hours := h.hours,
             taskCount := h.taskCount,
             outputFiles := st.outputFiles ++ [dayFile st.curDate],
             aggs := st.aggs ++ [(h.tempFiles, dayFile st.curDate, st.curDate)] }
          (by simp only; omega) (by simp only; omega)
          (by simp only; omega) (by simp only; omega)
          (by simp only; omega) (by simp only; omega)
      refine ⟨d, ?_, ?_, ?_⟩
      · simp only [dayLoop, if_pos hcond, hrun]
        exact hd
      · rw [hdlen]
        simp only [List.length_append, List.length_singleton]
        omega
      · rw [hdhours]
        simp only [hhours, hcur, List.append_assoc]
        rw [range'_glue st.curTime (st.curDate + 24) (endTime + 1) (by omega) (by omega)]
    · have hmin : min (st.curDate + 24) (endTime + 1) = endTime + 1 := by omega
      rw [hmin] at hcur hhours
      obtain ⟨m, rfl⟩ : ∃ m, n = m + 1 := ⟨n - 1, by omega⟩
      refine ⟨{ curDate := st.curDate + 24,
                curTime := h.curTime,
                tasks := h.tasks,
                hours := h.hours,
                taskCount := h.taskCount,
                outputFiles := st.outputFiles ++ [dayFile st.curDate],
                aggs := st.aggs ++ [(h.tempFiles, dayFile st.curDate, st.curDate)] },
        ?_, ?_, ?_⟩
      · simp only [dayLoop, if_pos hcond, hrun]
        rw [if_neg (by omega)]
      · simp only [List.length_append, List.length_singleton]
        omega
      · simp only [hhours, hcur]

/-- Helper: full characterization of a `ParseLogs` run with an error-free
glob and enough fuel: it completes, dispatches one Day Aggregator per
inclusive calendar day of the range, and processes exactly the in-range
hours. -/
theorem ParseLogs_run (dirSt : DirState)
    (glob : Nat → Option (List String)) (tmp : Nat → String → String)
    (dayFile : Nat → String) (combinedPath : String)
    (startTime endTime : Nat) (singleFile writeStdout : Bool)
    (fsAfterDays : FS) (fuel : Nat)
    (hse : startTime ≤ endTime) (hglob : ∀ t, (glob t).isSome)
    (hfuel : endTime + 26 ≤ fuel) :
    ∃ r, ParseLogs dirSt glob tmp dayFile combinedPath startTime endTime
        singleFile writeStdout fsAfterDays fuel = some r ∧
      r.aggs.length = endTime / 24 - startTime / 24 + 1 ∧
      r.hours = List.range' startTime (endTime + 1 - startTime) := by
  obtain ⟨d, hd, hlen, hhours⟩ :=
    dayLoop_run glob tmp dayFile endTime fuel hglob (by omega) fuel
      ⟨startTime - startTime % 24, startTime, [], [], 0, [], []⟩
      (by show (startTime - startTime % 24) % 24 = 0; omega)
      (by show startTime - startTime % 24 ≤ endTime; omega)
      (by show startTime - startTime % 24 ≤ startTime; omega)
      (by show startTime < startTime - startTime % 24 + 24; omega)
      (by show startTime ≤ endTime + 1; omega)
      (by show endTime / 24 - (startTime - startTime % 24) / 24 + 1 < fuel; omega)
  have hlen2 : d.aggs.length =
      0 + (endTime / 24 - (startTime - startTime % 24) / 24 + 1) := hlen
  have hhours2 : d.hours =
      [] ++ List.range' startTime (endTime + 1 - startTime) := hhours
  refine ⟨{ dirErr := (TryCreateDir dirSt true).err, tasks := d.tasks,
            hours := d.hours, taskCount := d.taskCount,
            outputFiles := d.outputFiles, aggs := d.aggs,
            final := finalizeStep fsAfterDays d.outputFiles combinedPath
              writeStdout singleFile }, ?_, ?_, ?_⟩
  · simp only [ParseLogs]
    rw [hd]
    rfl
  · show d.aggs.length = endTime / 24 - startTime / 24 + 1
    omega
  · show d.hours = List.range' startTime (endTime + 1 - startTime)
    simpa using hhours2

/-- C3: for every range with start at or before end and an error-free glob,
the number of dispatched Day Aggregators equals the inclusive calendar-day
count of the range (day boundaries at midnight truncation), and the hours
processed are exactly the in-range hours, so a range starting or ending
mid-day processes only its in-range hours, not full boundary days. -/
theorem claim_C3_one_aggregator_per_calendar_day (dirSt : DirState)
    (glob : Nat → Option (List String)) (tmp : Nat → String → String)
    (dayFile : Nat → String) (combinedPath : String)
    (startTime endTime : Nat) (singleFile writeStdout : Bool)
    (fsAfterDays : FS) (fuel : Nat)
    (hse : startTime ≤ endTime) (hglob : ∀ t, (glob t).isSome)
    (hfuel : endTime + 26 ≤ fuel) :
    ∃ r, ParseLogs dirSt glob tmp dayFile combinedPath startTime endTime
        singleFile writeStdout fsAfterDays fuel = some r ∧
      r.aggs.length = endTime / 24 - startTime / 24 + 1 ∧
      r.hours = List.range' startTime (endTime + 1 - startTime) :=
  ParseLogs_run dirSt glob tmp dayFile combinedPath startTime endTime
    singleFile writeStdout fsAfterDays fuel hse hglob hfuel

/-- C3 witness: the range from hour 5 to hour 30 (two calendar days,
mid-day boundaries on each side) dispatches exactly two Day Aggregators
and processes exactly hours 5 through 30. -/
theorem claim_C3_witness :
    ∃ r, ParseLogs ⟨.dir, .dir, true, true, false⟩ (fun _ => some [])
        (fun _ f => f) (fun _ => "d") "c" 5 30 false false
        (fun _ => none) 56 = some r ∧
      r.aggs.length = 30 / 24 - 5 / 24 + 1 ∧
      r.hours = List.range' 5 (30 + 1 - 5) :=
  claim_C3_one_aggregator_per_calendar_day _ _ _ _ _ _ _ _ _ _ _
    (by omega) (fun _ => rfl) (by omega)

/-- C5: for every range with start at or before end and an error-free
glob, the hour loop includes the hour equal to end (the loop bound is
inclusive), and a range whose start equals its end processes exactly one
day (one dispatched aggregator) and exactly one hour. -/
theorem claim_C5_end_inclusive_and_single_slot (dirSt : DirState)
    (glob : Nat → Option (List String)) (tmp : Nat → String → String)
    (dayFile : Nat → String) (combinedPath : String)
    (startTime endTime : Nat) (singleFile writeStdout : Bool)
    (fsAfterDays : FS) (fuel : Nat)
    (hse : startTime ≤ endTime) (hglob : ∀ t, (glob t).isSome)
    (hfuel : endTime + 26 ≤ fuel) :
    ∃ r, ParseLogs dirSt glob tmp dayFile combinedPath startTime endTime
        singleFile writeStdout fsAfterDays fuel = some r ∧
      endTime ∈ r.hours ∧
      (startTime = endTime → r.aggs.length = 1 ∧ r.hours = [startTime]) := by
  obtain ⟨r, hr, hlen, hhours⟩ :=
    ParseLogs_run dirSt glob tmp dayFile combinedPath startTime endTime
      singleFile writeStdout fsAfterDays fuel hse hglob hfuel
  refine ⟨r, hr, ?_, ?_⟩
  · rw [hhours]
    exact List.mem_range'.mpr ⟨endTime - startTime, by omega, by omega⟩
  · intro heq
    refine ⟨by omega, ?_⟩
    rw [hhours]
    have h1 : endTime + 1 - startTime = 1 := by omega
    rw [h1, List.range'_one]

/-- C5 witness: the range whose start and end are both hour 7 processes
exactly one day and exactly the single hour 7, which is the end hour. -/
theorem claim_C5_witness :
    ∃ r, ParseLogs ⟨.dir, .dir, true, true, false⟩ (fun _ => some [])
        (fun _ f => f) (fun _ => "d") "c" 7 7 false false
        (fun _ => none) 40 = some r ∧
      7 ∈ r.hours ∧ (7 = 7 → r.aggs.length = 1 ∧ r.hours = [7]) :=
  claim_C5_end_inclusive_and_single_slot _ _ _ _ _ _ _ _ _ _ _
    (by omega) (fun _ => rfl) (by omega)

end Nagini
